import Mathlib

/-!
# Adafruit TSC2007 resistive touch controller driver

A shallow embedding of `Adafruit_TSC2007.cpp` (`begin`, `command`, `read_touch`, the
destructor and the release step it shares with `begin`) together with theorems about the
control byte that is sent, the 12-bit sample that is decoded, the order of bus
transactions, the validity flag of a touch reading, the handling of failed probes and
transfers, and the accounting of allocated and released interfaces.

Conventions of the embedding.

* `uint8_t` values that come from outside (the I2C address, the bytes the bus puts into
  the reply buffer) are `Byte = Fin 256`. Integer arguments of enumeration type are
  natural numbers, and the cast `(uint8_t)e` is `e % 256`.
* C arithmetic is carried out on `Nat`; each store into a `uint8_t` is `% 256` and the
  conversion of the return value to `uint16_t` is `% 65536`.
* The I2C layer (`Adafruit_I2CDevice`, `TwoWire`) is not part of this repository. It is a
  parameter: a `TwoWire σ` gives, for a bus state of type `σ`, the outcome of the probe
  done by `Adafruit_I2CDevice::begin` and of `Adafruit_I2CDevice::write_then_read`.
* Everything the driver does to the outside is appended to a log of `Event`s, in order.
* Dereferencing the null `i2c_dev` is undefined behaviour; the embedding returns `none`.
-/

namespace TSC2007

/-- An octet, the value range of `uint8_t`. -/
abbrev Byte := Fin 256

/-- The enumerators of `Adafruit_TSC2007.h` that the driver code names. The header is not
among the sources, so their integer values are parameters of the embedding. -/
structure Codes where
  MEASURE_TEMP0 : Nat
  MEASURE_X : Nat
  MEASURE_Y : Nat
  MEASURE_Z1 : Nat
  MEASURE_Z2 : Nat
  POWERDOWN_IRQON : Nat
  ADON_IRQOFF : Nat
  ADC_12BIT : Nat
deriving DecidableEq

/-- What `write_then_read(&cmd, 1, reply, 2)` leaves behind: its boolean result and the
two bytes that are in the `reply` buffer when it returns. The buffer is not initialised by
the driver, so after a failed transfer `b0` and `b1` are whatever the buffer held. -/
structure Reply where
  ok : Bool
  b0 : Byte
  b1 : Byte
deriving DecidableEq

/-- The bus collaborator (`TwoWire` seen through `Adafruit_I2CDevice`), over bus states
`σ`. `probe s a` is `Adafruit_I2CDevice::begin()` for a device at address `a`;
`write_then_read s a out n` writes the bytes `out` and reads `n` bytes back. -/
structure TwoWire (σ : Type) where
  probe : σ → Byte → Bool × σ
  write_then_read : σ → Byte → List Byte → Nat → Reply × σ

/-- An `Adafruit_I2CDevice` object on the heap: `id` is the identity of the allocation,
`addr` and `wire` are the constructor arguments it keeps. -/
structure Adafruit_I2CDevice (σ : Type) where
  id : Nat
  addr : Byte
  wire : TwoWire σ

/-- Effects visible outside the driver object. -/
inductive Event where
  /-- Allocation `new Adafruit_I2CDevice(address, wire)` of the object `id`. -/
  | alloc (id : Nat) (addr : Byte)
  /-- Release `delete i2c_dev` of the object `id`. -/
  | free (id : Nat)
  /-- Call `i2c_dev->begin()` on the device at `addr`. -/
  | probe (addr : Byte)
  /-- Call `i2c_dev->write_then_read(out, out.length, reply, readLen)`. -/
  | xfer (addr : Byte) (out : List Byte) (readLen : Nat)
deriving DecidableEq

/-- The world around the driver: the state of the bus, the number of heap objects
allocated so far (the next fresh identity) and the log of effects, oldest first. -/
structure World (σ : Type) where
  bus : σ
  next : Nat
  log : List Event

/-- The driver object; its only data member is the pointer `i2c_dev` (`none` is null). -/
structure Adafruit_TSC2007 (σ : Type) where
  i2c_dev : Option (Adafruit_I2CDevice σ)

/-- The control byte of `command`:
`uint8_t cmd = (uint8_t)func << 4; cmd |= (uint8_t)pwr << 2; cmd |= (uint8_t)res << 1;`
with a truncation to 8 bits at each of the three stores. -/
def controlByte (func pwr res : Nat) : Nat :=
  let cmd := ((func % 256) <<< 4) % 256
  let cmd := (cmd ||| ((pwr % 256) <<< 2)) % 256
  let cmd := (cmd ||| ((res % 256) <<< 1)) % 256
  cmd

/-- The control byte as the `uint8_t` handed to the bus. -/
def cmdByte (func pwr res : Nat) : Byte :=
  ⟨controlByte func pwr res, Nat.mod_lt _ (by decide)⟩

/-- The return expression of `command`:
`((uint16_t)reply[0] << 4) | (reply[1] >> 4)`, converted to `uint16_t`. -/
def decode (b0 b1 : Byte) : Nat :=
  (((b0.val % 65536) <<< 4) ||| (b1.val >>> 4)) % 65536

/-- Embedding of `Adafruit_TSC2007::command`: build the control byte, do one
`write_then_read` of 1 byte out and 2 bytes in on `i2c_dev` (its result is not looked at),
return the 12 bits taken from the reply buffer. -/
def command {σ : Type} (d : Adafruit_TSC2007 σ) (w : World σ) (func pwr res : Nat) :
    Option (Nat × World σ) :=
  match d.i2c_dev with
  | none => none
  | some dev =>
    let cmd := cmdByte func pwr res
    let r := dev.wire.write_then_read w.bus dev.addr [cmd] 2
    some (decode r.1.b0 r.1.b1,
      { bus := r.2, next := w.next, log := w.log ++ [Event.xfer dev.addr [cmd] 2] })

/-- The values `read_touch` hands back: the four stores through its pointer arguments
(taken to be valid and pairwise distinct) and its boolean result. -/
structure TouchSample where
  x : Nat
  y : Nat
  z1 : Nat
  z2 : Nat
  success : Bool
deriving DecidableEq

/-- Embedding of `Adafruit_TSC2007::read_touch`: five calls of `command` in program
order, the first four stored, the fifth dropped, then the test on `*x` and `*y`. -/
def read_touch {σ : Type} (k : Codes) (d : Adafruit_TSC2007 σ) (w : World σ) :
    Option (TouchSample × World σ) :=
  match command d w k.MEASURE_X k.ADON_IRQOFF k.ADC_12BIT with
  | none => none
  | some (x, w1) =>
  match command d w1 k.MEASURE_Y k.ADON_IRQOFF k.ADC_12BIT with
  | none => none
  | some (y, w2) =>
  match command d w2 k.MEASURE_Z1 k.ADON_IRQOFF k.ADC_12BIT with
  | none => none
  | some (z1, w3) =>
  match command d w3 k.MEASURE_Z2 k.ADON_IRQOFF k.ADC_12BIT with
  | none => none
  | some (z2, w4) =>
  match command d w4 k.MEASURE_TEMP0 k.POWERDOWN_IRQON k.ADC_12BIT with
  | none => none
  | some (_, w5) =>
    some ({ x := x, y := y, z1 := z1, z2 := z2,
            success := (x != 4095) && (y != 4095) }, w5)

/-- The `if (i2c_dev) { delete i2c_dev; }` that opens `begin` and makes up the
destructor: the object, when there is one, is released. The pointer is left as it is. -/
def deleteOld {σ : Type} (d : Adafruit_TSC2007 σ) (w : World σ) : World σ :=
  match d.i2c_dev with
  | none => w
  | some old => { w with log := w.log ++ [Event.free old.id] }

/-- Embedding of `Adafruit_TSC2007::begin`: release the old interface, allocate a new
one for `address` on `wire`, probe it, and on success send the power-down command. The
result is the returned boolean, the driver object afterwards and the world afterwards. -/
def begin {σ : Type} (k : Codes) (d : Adafruit_TSC2007 σ) (w : World σ)
    (address : Byte) (wire : TwoWire σ) : Option (Bool × Adafruit_TSC2007 σ × World σ) :=
  let w1 := deleteOld d w
  let dev : Adafruit_I2CDevice σ := { id := w1.next, addr := address, wire := wire }
  let w2 : World σ :=
    { bus := w1.bus, next := w1.next + 1, log := w1.log ++ [Event.alloc dev.id address] }
  let d2 : Adafruit_TSC2007 σ := { i2c_dev := some dev }
  let p := dev.wire.probe w2.bus dev.addr
  let w3 : World σ := { bus := p.2, next := w2.next, log := w2.log ++ [Event.probe dev.addr] }
  if !p.1 then
    some (false, d2, w3)
  else
    match command d2 w3 k.MEASURE_TEMP0 k.POWERDOWN_IRQON k.ADC_12BIT with
    | none => none
    | some (_, w4) => some (true, d2, w4)

/-- A scripted bus for scenarios: its state is the list of replies still to be given.
Each transfer hands out the next one; when none is left the transfer fails with a zeroed
buffer. The probe answers `present` and leaves the script alone. -/
def scripted (present : Bool) : TwoWire (List Reply) where
  probe := fun s _ => (present, s)
  write_then_read := fun s _ _ _ =>
    match s with
    | [] => ({ ok := false, b0 := 0, b1 := 0 }, [])
    | r :: rest => (r, rest)

/-- One assignment of enumerator values (X, Y, Z1, Z2 as function codes 12 to 15,
temperature 0 as code 0, the A/D-on power mode as 1, power-down and 12-bit resolution as
0). It is used only to run concrete scenarios; no theorem about the driver depends on
these numbers. -/
def sampleCodes : Codes where
  MEASURE_TEMP0 := 0
  MEASURE_X := 12
  MEASURE_Y := 13
  MEASURE_Z1 := 14
  MEASURE_Z2 := 15
  POWERDOWN_IRQON := 0
  ADON_IRQOFF := 1
  ADC_12BIT := 0

/-- Modelled from the spec: the declaration of the data member `i2c_dev`, with its
initial value, is in `Adafruit_TSC2007.h`, which is not among the sources, and the body
of the constructor is empty. The spec has the handle created on successful setup, so a
newly constructed driver holds none. -/
def construct {σ : Type} : Adafruit_TSC2007 σ :=
  { i2c_dev := none }

/-- Embedding of `Adafruit_TSC2007::~Adafruit_TSC2007`, whose body is
`if (i2c_dev) { delete i2c_dev; }`. The driver object is gone afterwards; what is left
is the world. -/
def destructor {σ : Type} (d : Adafruit_TSC2007 σ) (w : World σ) : World σ :=
  deleteOld d w

/-- Successive calls of `begin` on one driver object, each with its own address and
wire; the boolean results are dropped. -/
def beginAll {σ : Type} (k : Codes) :
    List (Byte × TwoWire σ) → Adafruit_TSC2007 σ → World σ →
      Option (Adafruit_TSC2007 σ × World σ)
  | [], d, w => some (d, w)
  | (address, wire) :: rest, d, w =>
    match begin k d w address wire with
    | none => none
    | some (_, d1, w1) => beginAll k rest d1 w1

/-- The identities of the objects allocated in a log, in order. -/
def allocated (log : List Event) : List Nat :=
  log.filterMap fun e =>
    match e with
    | Event.alloc id _ => some id
    | _ => none

/-- The identities of the objects released in a log, in order. -/
def freed (log : List Event) : List Nat :=
  log.filterMap fun e =>
    match e with
    | Event.free id => some id
    | _ => none

/-- Number of handle acquisitions (`new`) in a log. -/
def opens (log : List Event) : Nat :=
  (allocated log).length

/-- Number of handle releases (`delete`) in a log. -/
def closes (log : List Event) : Nat :=
  (freed log).length

/-- The bus transactions of a log, in order: every other event is dropped. -/
def transfers (log : List Event) : List Event :=
  log.filter fun e =>
    match e with
    | Event.xfer _ _ _ => true
    | _ => false

/-- Handle accounting invariant of a driver `d` in a world `w`: identities in the log are
below the next fresh one, nothing has been released twice, only allocated objects have
been released, and the log is balanced up to the one object the driver points at. -/
def HandleInv {σ : Type} (d : Adafruit_TSC2007 σ) (w : World σ) : Prop :=
  (∀ i ∈ allocated w.log, i < w.next)
    ∧ (freed w.log).Nodup
    ∧ (∀ i ∈ freed w.log, i ∈ allocated w.log)
    ∧ (match d.i2c_dev with
        | none => opens w.log = closes w.log
        | some dev =>
          dev.id ∈ allocated w.log ∧ dev.id ∉ freed w.log
            ∧ opens w.log = closes w.log + 1)

/-- The return value as the doc comment of `command` words it ("12 bits of data shifted
from the 16-bit read value"): the two reply bytes read as one big-endian 16-bit value,
shifted right by 4. It is compared with `decode`, which follows the code. -/
def shifted16 (b0 b1 : Byte) : Nat :=
  ((b0.val <<< 8) ||| b1.val) >>> 4

/-! ## Bit-level lemmas -/

theorem controlByte_eq (func pwr res : Nat) :
    controlByte func pwr res = ((func <<< 4) ||| (pwr <<< 2) ||| (res <<< 1)) % 256 := by
  unfold controlByte
  apply Nat.eq_of_testBit_eq
  intro i
  have h256 : (256 : Nat) = 2 ^ 8 := rfl
  simp only [h256, Nat.testBit_mod_two_pow, Nat.testBit_or, Nat.testBit_shiftLeft]
  by_cases hi : i < 8
  · have h4 : i - 4 < 8 := by omega
    have h2 : i - 2 < 8 := by omega
    have h1 : i - 1 < 8 := by omega
    simp [hi, h4, h2, h1]
  · simp [hi]

theorem controlByte_testBit_zero (func pwr res : Nat) :
    (controlByte func pwr res).testBit 0 = false := by
  rw [controlByte_eq]
  have h256 : (256 : Nat) = 2 ^ 8 := rfl
  simp only [h256, Nat.testBit_mod_two_pow, Nat.testBit_or, Nat.testBit_shiftLeft]
  simp

theorem controlByte_even (func pwr res : Nat) : controlByte func pwr res % 2 = 0 := by
  have h := controlByte_testBit_zero func pwr res
  rw [Nat.testBit_zero] at h
  simpa using h

theorem shl4_lt (b : Byte) : b.val <<< 4 < 2 ^ 12 := by
  rw [Nat.shiftLeft_eq]
  norm_num
  omega

theorem shr4_lt (b : Byte) : b.val >>> 4 < 2 ^ 12 := by
  rw [Nat.shiftRight_eq_div_pow]
  norm_num
  omega

theorem decode_eq (b0 b1 : Byte) : decode b0 b1 = (b0.val <<< 4) ||| (b1.val >>> 4) := by
  unfold decode
  have h0 : b0.val % 65536 = b0.val := Nat.mod_eq_of_lt (by omega)
  rw [h0]
  apply Nat.mod_eq_of_lt
  have := Nat.or_lt_two_pow (shl4_lt b0) (shr4_lt b1)
  omega

theorem decode_lt (b0 b1 : Byte) : decode b0 b1 < 4096 := by
  rw [decode_eq]
  exact Nat.or_lt_two_pow (shl4_lt b0) (shr4_lt b1)

theorem controlByte_fields_fin : ∀ f : Fin 16, ∀ p : Fin 4, ∀ r : Fin 2,
    controlByte f p r >>> 4 = f ∧ (controlByte f p r >>> 2) &&& 3 = p ∧
      (controlByte f p r >>> 1) &&& 1 = r := by
  decide

theorem controlByte_fields (f p r : Nat) (hf : f < 16) (hp : p < 4) (hr : r < 2) :
    controlByte f p r >>> 4 = f ∧ (controlByte f p r >>> 2) &&& 3 = p ∧
      (controlByte f p r >>> 1) &&& 1 = r :=
  controlByte_fields_fin ⟨f, hf⟩ ⟨p, hp⟩ ⟨r, hr⟩

/-! ## Unfolding lemmas for the operations -/

theorem command_some {σ : Type} (dev : Adafruit_I2CDevice σ) (w : World σ)
    (func pwr res : Nat) :
    command { i2c_dev := some dev } w func pwr res =
      some (decode (dev.wire.write_then_read w.bus dev.addr [cmdByte func pwr res] 2).1.b0
              (dev.wire.write_then_read w.bus dev.addr [cmdByte func pwr res] 2).1.b1,
        { bus := (dev.wire.write_then_read w.bus dev.addr [cmdByte func pwr res] 2).2,
          next := w.next,
          log := w.log ++ [Event.xfer dev.addr [cmdByte func pwr res] 2] }) :=
  rfl

/-! ## The command operation -/

/-- C1: whatever two bytes `(b0, b1)` the bus leaves in the reply buffer of `command`,
and whatever the function, power and resolution arguments, `command` returns
`(b0 << 4) | (b1 >> 4)`; reply `(0xFF, 0xF0)` gives 4095, `(0x00, 0x00)` gives 0 and
`(0x12, 0x30)` gives 291. -/
theorem command_returns_decoded_reply {σ : Type} (dev : Adafruit_I2CDevice σ)
    (w : World σ) (func pwr res : Nat) (rep : Reply) (s : σ)
    (h : dev.wire.write_then_read w.bus dev.addr [cmdByte func pwr res] 2 = (rep, s)) :
    (command { i2c_dev := some dev } w func pwr res).map Prod.fst
        = some ((rep.b0.val <<< 4) ||| (rep.b1.val >>> 4))
      ∧ (rep.b0 = 0xFF → rep.b1 = 0xF0 →
          (command { i2c_dev := some dev } w func pwr res).map Prod.fst = some 4095)
      ∧ (rep.b0 = 0x00 → rep.b1 = 0x00 →
          (command { i2c_dev := some dev } w func pwr res).map Prod.fst = some 0)
      ∧ (rep.b0 = 0x12 → rep.b1 = 0x30 →
          (command { i2c_dev := some dev } w func pwr res).map Prod.fst = some 291) := by
  have hc : (command { i2c_dev := some dev } w func pwr res).map Prod.fst
      = some (decode rep.b0 rep.b1) := by
    rw [command_some, h]
    rfl
  refine ⟨by rw [hc, decode_eq], ?_, ?_, ?_⟩
  · intro h0 h1
    rw [hc, h0, h1]
    rfl
  · intro h0 h1
    rw [hc, h0, h1]
    rfl
  · intro h0 h1
    rw [hc, h0, h1]
    rfl

/-- Scenario for C1: a bus that answers `(0x12, 0x30)` makes `command` return 291. -/
theorem command_returns_decoded_reply_witness :
    (scripted true).write_then_read [{ ok := true, b0 := 0x12, b1 := 0x30 }] 0x48
        [cmdByte 12 1 0] 2 = ({ ok := true, b0 := 0x12, b1 := 0x30 }, [])
      ∧ (command { i2c_dev := some { id := 0, addr := 0x48, wire := scripted true } }
            { bus := [{ ok := true, b0 := 0x12, b1 := 0x30 }], next := 1, log := [] }
            12 1 0).map Prod.fst = some 291 :=
  ⟨rfl,
    (command_returns_decoded_reply { id := 0, addr := 0x48, wire := scripted true }
      { bus := [{ ok := true, b0 := 0x12, b1 := 0x30 }], next := 1, log := [] }
      12 1 0 { ok := true, b0 := 0x12, b1 := 0x30 } [] rfl).2.2.2 rfl rfl⟩

/-- C2: every one of the 65536 two-byte replies decodes to a value below 4096, and so
the sample that `command` returns (it always returns one when the interface exists) is
in the range 0 to 4095. -/
theorem command_sample_in_range {σ : Type} (dev : Adafruit_I2CDevice σ) (w : World σ)
    (func pwr res : Nat) :
    (∀ b0 b1 : Byte, decode b0 b1 < 4096)
      ∧ ∃ v w1, command { i2c_dev := some dev } w func pwr res = some (v, w1) ∧ v < 4096 :=
  ⟨decode_lt, _, _, command_some dev w func pwr res, decode_lt _ _⟩

/-- C3: one call of `command` appends exactly one bus transaction to the log; it writes
the single byte `((f << 4) | (p << 2) | (r << 1))` truncated to 8 bits and asks for 2
reply bytes, and the bus has been stepped exactly once. -/
theorem command_single_transaction {σ : Type} (dev : Adafruit_I2CDevice σ) (w : World σ)
    (f p r : Nat) :
    ∃ v w1 b, command { i2c_dev := some dev } w f p r = some (v, w1)
      ∧ w1.log = w.log ++ [Event.xfer dev.addr [b] 2]
      ∧ b.val = ((f <<< 4) ||| (p <<< 2) ||| (r <<< 1)) % 256
      ∧ w1.bus = (dev.wire.write_then_read w.bus dev.addr [b] 2).2
      ∧ w1.next = w.next :=
  ⟨_, _, cmdByte f p r, command_some dev w f p r, rfl, controlByte_eq f p r, rfl, rfl⟩

/-- C4: for all function, power and resolution arguments (any integer codes), bit 0 of
the control byte that `command` hands to the bus is zero: the byte is even. -/
theorem control_byte_bit0_zero {σ : Type} (dev : Adafruit_I2CDevice σ) (w : World σ)
    (f p r : Nat) :
    ∃ v w1 b, command { i2c_dev := some dev } w f p r = some (v, w1)
      ∧ w1.log = w.log ++ [Event.xfer dev.addr [b] 2]
      ∧ b.val = controlByte f p r
      ∧ b.val.testBit 0 = false
      ∧ b.val % 2 = 0 :=
  ⟨_, _, cmdByte f p r, command_some dev w f p r, rfl, rfl,
    controlByte_testBit_zero f p r, controlByte_even f p r⟩

/-- C5: for function codes below 16, power codes below 4 and resolution codes below 2
the control byte keeps each selector in its own field (high nibble, bits 3-2, bit 1),
so two different triples never give the same control byte. -/
theorem control_byte_fields_injective (f p r : Nat) (hf : f < 16) (hp : p < 4)
    (hr : r < 2) :
    controlByte f p r >>> 4 = f
      ∧ (controlByte f p r >>> 2) &&& 3 = p
      ∧ (controlByte f p r >>> 1) &&& 1 = r
      ∧ ∀ f2 p2 r2 : Nat, f2 < 16 → p2 < 4 → r2 < 2 →
          controlByte f p r = controlByte f2 p2 r2 → f = f2 ∧ p = p2 ∧ r = r2 := by
  obtain ⟨h1, h2, h3⟩ := controlByte_fields f p r hf hp hr
  refine ⟨h1, h2, h3, ?_⟩
  intro f2 p2 r2 hf2 hp2 hr2 heq
  obtain ⟨g1, g2, g3⟩ := controlByte_fields f2 p2 r2 hf2 hp2 hr2
  rw [← heq] at g1 g2 g3
  exact ⟨h1.symm.trans g1, h2.symm.trans g2, h3.symm.trans g3⟩

/-- Scenario for C5: the triple (12, 1, 0) is packed as 0xC4 and read back field by
field. -/
theorem control_byte_fields_injective_witness :
    (12 < 16 ∧ 1 < 4 ∧ 0 < 2) ∧ controlByte 12 1 0 = 0xC4
      ∧ controlByte 12 1 0 >>> 4 = 12
      ∧ (controlByte 12 1 0 >>> 2) &&& 3 = 1
      ∧ (controlByte 12 1 0 >>> 1) &&& 1 = 0 :=
  ⟨by decide, by decide,
    (control_byte_fields_injective 12 1 0 (by decide) (by decide) (by decide)).1,
    (control_byte_fields_injective 12 1 0 (by decide) (by decide) (by decide)).2.1,
    (control_byte_fields_injective 12 1 0 (by decide) (by decide) (by decide)).2.2.1⟩

/-! ## The read-touch operation -/

theorem xfer_eta {σ : Type} (wire : TwoWire σ) (s : σ) (a : Byte) (out : List Byte)
    (n : Nat) :
    wire.write_then_read s a out n =
      ((wire.write_then_read s a out n).1, (wire.write_then_read s a out n).2) :=
  rfl

/-- One run of `read_touch` on an existing interface, written out in terms of the five
replies the bus gives in turn. -/
theorem read_touch_run {σ : Type} (k : Codes) (dev : Adafruit_I2CDevice σ) (w : World σ)
    (r1 r2 r3 r4 r5 : Reply) (s1 s2 s3 s4 s5 : σ)
    (h1 : dev.wire.write_then_read w.bus dev.addr
      [cmdByte k.MEASURE_X k.ADON_IRQOFF k.ADC_12BIT] 2 = (r1, s1))
    (h2 : dev.wire.write_then_read s1 dev.addr
      [cmdByte k.MEASURE_Y k.ADON_IRQOFF k.ADC_12BIT] 2 = (r2, s2))
    (h3 : dev.wire.write_then_read s2 dev.addr
      [cmdByte k.MEASURE_Z1 k.ADON_IRQOFF k.ADC_12BIT] 2 = (r3, s3))
    (h4 : dev.wire.write_then_read s3 dev.addr
      [cmdByte k.MEASURE_Z2 k.ADON_IRQOFF k.ADC_12BIT] 2 = (r4, s4))
    (h5 : dev.wire.write_then_read s4 dev.addr
      [cmdByte k.MEASURE_TEMP0 k.POWERDOWN_IRQON k.ADC_12BIT] 2 = (r5, s5)) :
    read_touch k { i2c_dev := some dev } w =
      some ({ x := decode r1.b0 r1.b1, y := decode r2.b0 r2.b1,
              z1 := decode r3.b0 r3.b1, z2 := decode r4.b0 r4.b1,
              success := (decode r1.b0 r1.b1 != 4095) && (decode r2.b0 r2.b1 != 4095) },
            { bus := s5, next := w.next,
              log := w.log ++
                [Event.xfer dev.addr [cmdByte k.MEASURE_X k.ADON_IRQOFF k.ADC_12BIT] 2,
                 Event.xfer dev.addr [cmdByte k.MEASURE_Y k.ADON_IRQOFF k.ADC_12BIT] 2,
                 Event.xfer dev.addr [cmdByte k.MEASURE_Z1 k.ADON_IRQOFF k.ADC_12BIT] 2,
                 Event.xfer dev.addr [cmdByte k.MEASURE_Z2 k.ADON_IRQOFF k.ADC_12BIT] 2,
                 Event.xfer dev.addr
                   [cmdByte k.MEASURE_TEMP0 k.POWERDOWN_IRQON k.ADC_12BIT] 2] }) := by
  simp only [read_touch, command_some, h1, h2, h3, h4, h5, List.append_assoc,
    List.singleton_append, List.cons_append, List.nil_append]

/-- The five replies of one `read_touch` run exist for every bus: the run never gets
stuck once the interface exists. -/
theorem read_touch_total {σ : Type} (k : Codes) (dev : Adafruit_I2CDevice σ)
    (w : World σ) :
    ∃ (r1 r2 r3 r4 r5 : Reply) (s1 s2 s3 s4 s5 : σ),
      dev.wire.write_then_read w.bus dev.addr
          [cmdByte k.MEASURE_X k.ADON_IRQOFF k.ADC_12BIT] 2 = (r1, s1)
        ∧ dev.wire.write_then_read s1 dev.addr
          [cmdByte k.MEASURE_Y k.ADON_IRQOFF k.ADC_12BIT] 2 = (r2, s2)
        ∧ dev.wire.write_then_read s2 dev.addr
          [cmdByte k.MEASURE_Z1 k.ADON_IRQOFF k.ADC_12BIT] 2 = (r3, s3)
        ∧ dev.wire.write_then_read s3 dev.addr
          [cmdByte k.MEASURE_Z2 k.ADON_IRQOFF k.ADC_12BIT] 2 = (r4, s4)
        ∧ dev.wire.write_then_read s4 dev.addr
          [cmdByte k.MEASURE_TEMP0 k.POWERDOWN_IRQON k.ADC_12BIT] 2 = (r5, s5) :=
  ⟨_, _, _, _, _, _, _, _, _, _, xfer_eta _ _ _ _ _, xfer_eta _ _ _ _ _, xfer_eta _ _ _ _ _,
    xfer_eta _ _ _ _ _, xfer_eta _ _ _ _ _⟩

/-- C6: for every bus (every sequence of replies) `read_touch` returns, and its result
is `true` exactly when the stored x is not 4095 and the stored y is not 4095. -/
theorem read_touch_success_iff {σ : Type} (k : Codes) (dev : Adafruit_I2CDevice σ)
    (w : World σ) :
    ∃ t w1, read_touch k { i2c_dev := some dev } w = some (t, w1)
      ∧ (t.success = true ↔ t.x ≠ 4095 ∧ t.y ≠ 4095) := by
  obtain ⟨r1, r2, r3, r4, r5, s1, s2, s3, s4, s5, h1, h2, h3, h4, h5⟩ :=
    read_touch_total k dev w
  refine ⟨_, _, read_touch_run k dev w r1 r2 r3 r4 r5 s1 s2 s3 s4 s5 h1 h2 h3 h4 h5, ?_⟩
  simp

/-- C7: `read_touch` appends exactly five bus transactions to the log, in the order
X, Y, Z1, Z2 (each with A/D on, IRQ off, 12 bit) and then temperature 0 with power-down;
the bytes written are fixed by the enumerator codes and the address alone, whatever the
bus replies, and the power-down transaction is the last entry of the log. -/
theorem read_touch_command_sequence {σ : Type} (k : Codes) (dev : Adafruit_I2CDevice σ)
    (w : World σ) :
    ∃ t w1, read_touch k { i2c_dev := some dev } w = some (t, w1)
      ∧ w1.log = w.log ++
          [Event.xfer dev.addr [cmdByte k.MEASURE_X k.ADON_IRQOFF k.ADC_12BIT] 2,
           Event.xfer dev.addr [cmdByte k.MEASURE_Y k.ADON_IRQOFF k.ADC_12BIT] 2,
           Event.xfer dev.addr [cmdByte k.MEASURE_Z1 k.ADON_IRQOFF k.ADC_12BIT] 2,
           Event.xfer dev.addr [cmdByte k.MEASURE_Z2 k.ADON_IRQOFF k.ADC_12BIT] 2,
           Event.xfer dev.addr [cmdByte k.MEASURE_TEMP0 k.POWERDOWN_IRQON k.ADC_12BIT] 2]
      ∧ w1.log.length = w.log.length + 5
      ∧ w1.log.getLast? =
          some (Event.xfer dev.addr
            [cmdByte k.MEASURE_TEMP0 k.POWERDOWN_IRQON k.ADC_12BIT] 2) := by
  obtain ⟨r1, r2, r3, r4, r5, s1, s2, s3, s4, s5, h1, h2, h3, h4, h5⟩ :=
    read_touch_total k dev w
  refine ⟨_, _, read_touch_run k dev w r1 r2 r3 r4 r5 s1 s2 s3 s4 s5 h1 h2 h3 h4 h5,
    rfl, ?_, ?_⟩
  · simp
  · simp [List.getLast?_append]

/-- C8: when the bus answers the five transactions of `read_touch` with `r1` to `r5`,
the outputs are x, y, z1, z2 decoded from `r1`, `r2`, `r3`, `r4` (z1 and z2 whatever the
success flag is) and nothing in the outputs comes from `r5`; the replies `(0xAB,0xC0)`,
`(0x3F,0xF0)`, `(0x00,0x10)`, `(0x12,0x30)` give 2748, 1023, 1, 291 and success. -/
theorem read_touch_outputs {σ : Type} (k : Codes) (dev : Adafruit_I2CDevice σ)
    (w : World σ) (r1 r2 r3 r4 r5 : Reply) (s1 s2 s3 s4 s5 : σ)
    (h1 : dev.wire.write_then_read w.bus dev.addr
      [cmdByte k.MEASURE_X k.ADON_IRQOFF k.ADC_12BIT] 2 = (r1, s1))
    (h2 : dev.wire.write_then_read s1 dev.addr
      [cmdByte k.MEASURE_Y k.ADON_IRQOFF k.ADC_12BIT] 2 = (r2, s2))
    (h3 : dev.wire.write_then_read s2 dev.addr
      [cmdByte k.MEASURE_Z1 k.ADON_IRQOFF k.ADC_12BIT] 2 = (r3, s3))
    (h4 : dev.wire.write_then_read s3 dev.addr
      [cmdByte k.MEASURE_Z2 k.ADON_IRQOFF k.ADC_12BIT] 2 = (r4, s4))
    (h5 : dev.wire.write_then_read s4 dev.addr
      [cmdByte k.MEASURE_TEMP0 k.POWERDOWN_IRQON k.ADC_12BIT] 2 = (r5, s5)) :
    (read_touch k { i2c_dev := some dev } w).map Prod.fst =
        some { x := decode r1.b0 r1.b1, y := decode r2.b0 r2.b1,
               z1 := decode r3.b0 r3.b1, z2 := decode r4.b0 r4.b1,
               success := (decode r1.b0 r1.b1 != 4095) && (decode r2.b0 r2.b1 != 4095) }
      ∧ (r1.b0 = 0xAB → r1.b1 = 0xC0 → r2.b0 = 0x3F → r2.b1 = 0xF0 →
          r3.b0 = 0x00 → r3.b1 = 0x10 → r4.b0 = 0x12 → r4.b1 = 0x30 →
          (read_touch k { i2c_dev := some dev } w).map Prod.fst =
            some { x := 2748, y := 1023, z1 := 1, z2 := 291, success := true }) := by
  have hrun := read_touch_run k dev w r1 r2 r3 r4 r5 s1 s2 s3 s4 s5 h1 h2 h3 h4 h5
  refine ⟨by rw [hrun]; rfl, ?_⟩
  intro a1 a2 a3 a4 a5 a6 a7 a8
  rw [hrun, a1, a2, a3, a4, a5, a6, a7, a8]
  rfl

/-- Scenario for C8: the end-to-end run on a scripted bus, with an arbitrary fifth
reply. -/
theorem read_touch_outputs_witness :
    (read_touch sampleCodes
        { i2c_dev := some { id := 0, addr := 0x48, wire := scripted true } }
        { bus := [{ ok := true, b0 := 0xAB, b1 := 0xC0 }, { ok := true, b0 := 0x3F, b1 := 0xF0 },
                  { ok := true, b0 := 0x00, b1 := 0x10 }, { ok := true, b0 := 0x12, b1 := 0x30 },
                  { ok := true, b0 := 0x5A, b1 := 0xA5 }],
          next := 1, log := [] }).map Prod.fst =
      some { x := 2748, y := 1023, z1 := 1, z2 := 291, success := true } :=
  (read_touch_outputs sampleCodes { id := 0, addr := 0x48, wire := scripted true }
    { bus := [{ ok := true, b0 := 0xAB, b1 := 0xC0 }, { ok := true, b0 := 0x3F, b1 := 0xF0 },
              { ok := true, b0 := 0x00, b1 := 0x10 }, { ok := true, b0 := 0x12, b1 := 0x30 },
              { ok := true, b0 := 0x5A, b1 := 0xA5 }],
      next := 1, log := [] }
    { ok := true, b0 := 0xAB, b1 := 0xC0 } { ok := true, b0 := 0x3F, b1 := 0xF0 }
    { ok := true, b0 := 0x00, b1 := 0x10 } { ok := true, b0 := 0x12, b1 := 0x30 }
    { ok := true, b0 := 0x5A, b1 := 0xA5 }
    [{ ok := true, b0 := 0x3F, b1 := 0xF0 }, { ok := true, b0 := 0x00, b1 := 0x10 },
     { ok := true, b0 := 0x12, b1 := 0x30 }, { ok := true, b0 := 0x5A, b1 := 0xA5 }]
    [{ ok := true, b0 := 0x00, b1 := 0x10 }, { ok := true, b0 := 0x12, b1 := 0x30 },
     { ok := true, b0 := 0x5A, b1 := 0xA5 }]
    [{ ok := true, b0 := 0x12, b1 := 0x30 }, { ok := true, b0 := 0x5A, b1 := 0xA5 }]
    [{ ok := true, b0 := 0x5A, b1 := 0xA5 }] []
    rfl rfl rfl rfl rfl).2 rfl rfl rfl rfl rfl rfl rfl rfl

/-- The result of `read_touch` as a function of the replies to the X and the Y
transaction alone. -/
theorem read_touch_success_eq {σ : Type} (k : Codes) (dev : Adafruit_I2CDevice σ)
    (w : World σ) (r1 r2 : Reply) (s1 s2 : σ)
    (h1 : dev.wire.write_then_read w.bus dev.addr
      [cmdByte k.MEASURE_X k.ADON_IRQOFF k.ADC_12BIT] 2 = (r1, s1))
    (h2 : dev.wire.write_then_read s1 dev.addr
      [cmdByte k.MEASURE_Y k.ADON_IRQOFF k.ADC_12BIT] 2 = (r2, s2)) :
    (read_touch k { i2c_dev := some dev } w).map (fun o => o.1.success) =
      some ((decode r1.b0 r1.b1 != 4095) && (decode r2.b0 r2.b1 != 4095)) := by
  rw [read_touch_run k dev w r1 r2 _ _ _ s1 s2 _ _ _ h1 h2 (xfer_eta _ _ _ _ _)
    (xfer_eta _ _ _ _ _) (xfer_eta _ _ _ _ _)]
  rfl

/-- C9: `read_touch` returns `false` whenever the reply to the X transaction or the
reply to the Y transaction decodes to 4095, whatever the other replies are; the reply
`(0xFF, 0xF0)` for X gives `false`; and the result depends on the X and Y replies only:
a second run (any bus, any codes) with the same X and Y reply bytes returns the same
flag. -/
theorem read_touch_invalid_on_saturation {σ : Type} (k : Codes)
    (dev : Adafruit_I2CDevice σ) (w : World σ) (r1 r2 : Reply) (s1 s2 : σ)
    (h1 : dev.wire.write_then_read w.bus dev.addr
      [cmdByte k.MEASURE_X k.ADON_IRQOFF k.ADC_12BIT] 2 = (r1, s1))
    (h2 : dev.wire.write_then_read s1 dev.addr
      [cmdByte k.MEASURE_Y k.ADON_IRQOFF k.ADC_12BIT] 2 = (r2, s2)) :
    (decode r1.b0 r1.b1 = 4095 ∨ decode r2.b0 r2.b1 = 4095 →
        (read_touch k { i2c_dev := some dev } w).map (fun o => o.1.success) = some false)
      ∧ (r1.b0 = 0xFF → r1.b1 = 0xF0 →
        (read_touch k { i2c_dev := some dev } w).map (fun o => o.1.success) = some false)
      ∧ ∀ (τ : Type) (k2 : Codes) (dev2 : Adafruit_I2CDevice τ) (w2 : World τ)
          (q1 q2 : Reply) (u1 u2 : τ),
          dev2.wire.write_then_read w2.bus dev2.addr
            [cmdByte k2.MEASURE_X k2.ADON_IRQOFF k2.ADC_12BIT] 2 = (q1, u1) →
          dev2.wire.write_then_read u1 dev2.addr
            [cmdByte k2.MEASURE_Y k2.ADON_IRQOFF k2.ADC_12BIT] 2 = (q2, u2) →
          q1.b0 = r1.b0 → q1.b1 = r1.b1 → q2.b0 = r2.b0 → q2.b1 = r2.b1 →
          (read_touch k2 { i2c_dev := some dev2 } w2).map (fun o => o.1.success) =
            (read_touch k { i2c_dev := some dev } w).map (fun o => o.1.success) := by
  have hs := read_touch_success_eq k dev w r1 r2 s1 s2 h1 h2
  refine ⟨?_, ?_, ?_⟩
  · intro h
    rw [hs]
    rcases h with h | h <;> simp [h]
  · intro a1 a2
    rw [hs, a1, a2]
    rfl
  · intro τ k2 dev2 w2 q1 q2 u1 u2 g1 g2 e1 e2 e3 e4
    rw [hs, read_touch_success_eq k2 dev2 w2 q1 q2 u1 u2 g1 g2, e1, e2, e3, e4]

/-- Scenario for C9: X saturated at `(0xFF, 0xF0)`, every other channel in range; the
reading is reported invalid. -/
theorem read_touch_invalid_on_saturation_witness :
    (read_touch sampleCodes
        { i2c_dev := some { id := 0, addr := 0x48, wire := scripted true } }
        { bus := [{ ok := true, b0 := 0xFF, b1 := 0xF0 }, { ok := true, b0 := 0x3F, b1 := 0xF0 },
                  { ok := true, b0 := 0x00, b1 := 0x10 }, { ok := true, b0 := 0x12, b1 := 0x30 },
                  { ok := true, b0 := 0x00, b1 := 0x00 }],
          next := 1, log := [] }).map (fun o => o.1.success) = some false :=
  (read_touch_invalid_on_saturation sampleCodes
    { id := 0, addr := 0x48, wire := scripted true }
    { bus := [{ ok := true, b0 := 0xFF, b1 := 0xF0 }, { ok := true, b0 := 0x3F, b1 := 0xF0 },
              { ok := true, b0 := 0x00, b1 := 0x10 }, { ok := true, b0 := 0x12, b1 := 0x30 },
              { ok := true, b0 := 0x00, b1 := 0x00 }],
      next := 1, log := [] }
    { ok := true, b0 := 0xFF, b1 := 0xF0 } { ok := true, b0 := 0x3F, b1 := 0xF0 }
    [{ ok := true, b0 := 0x3F, b1 := 0xF0 }, { ok := true, b0 := 0x00, b1 := 0x10 },
     { ok := true, b0 := 0x12, b1 := 0x30 }, { ok := true, b0 := 0x00, b1 := 0x00 }]
    [{ ok := true, b0 := 0x00, b1 := 0x10 }, { ok := true, b0 := 0x12, b1 := 0x30 },
     { ok := true, b0 := 0x00, b1 := 0x00 }]
    rfl rfl).2.1 rfl rfl

/-! ## Initialisation -/

theorem deleteOld_bus {σ : Type} (d : Adafruit_TSC2007 σ) (w : World σ) :
    (deleteOld d w).bus = w.bus := by
  unfold deleteOld
  cases d.i2c_dev <;> rfl

/-- The run of `begin` when the probe fails. -/
theorem begin_probe_false {σ : Type} (k : Codes) (d : Adafruit_TSC2007 σ) (w : World σ)
    (address : Byte) (wire : TwoWire σ) (hp : (wire.probe w.bus address).1 = false) :
    begin k d w address wire =
      some (false,
        { i2c_dev := some { id := (deleteOld d w).next, addr := address, wire := wire } },
        { bus := (wire.probe w.bus address).2,
          next := (deleteOld d w).next + 1,
          log := (deleteOld d w).log ++
            [Event.alloc (deleteOld d w).next address, Event.probe address] }) := by
  simp only [begin, deleteOld_bus, hp, Bool.not_false, if_true, List.append_assoc,
    List.singleton_append]

/-- The run of `begin` when the probe succeeds. -/
theorem begin_probe_true {σ : Type} (k : Codes) (d : Adafruit_TSC2007 σ) (w : World σ)
    (address : Byte) (wire : TwoWire σ) (hp : (wire.probe w.bus address).1 = true) :
    begin k d w address wire =
      some (true,
        { i2c_dev := some { id := (deleteOld d w).next, addr := address, wire := wire } },
        { bus := (wire.write_then_read (wire.probe w.bus address).2 address
            [cmdByte k.MEASURE_TEMP0 k.POWERDOWN_IRQON k.ADC_12BIT] 2).2,
          next := (deleteOld d w).next + 1,
          log := (deleteOld d w).log ++
            [Event.alloc (deleteOld d w).next address, Event.probe address,
             Event.xfer address [cmdByte k.MEASURE_TEMP0 k.POWERDOWN_IRQON k.ADC_12BIT] 2] }) := by
  simp only [begin, deleteOld_bus, hp, command_some, Bool.not_true, Bool.false_eq_true,
    if_false, List.append_assoc, List.singleton_append, List.cons_append, List.nil_append]

/-- C10: for every address, bus and prior driver state, `begin` returns, and it returns
`true` exactly when the probe `i2c_dev->begin()` on the new interface succeeds; when the
probe fails it returns `false`. -/
theorem begin_true_iff_probe {σ : Type} (k : Codes) (d : Adafruit_TSC2007 σ)
    (w : World σ) (address : Byte) (wire : TwoWire σ) :
    ∃ b d1 w1, begin k d w address wire = some (b, d1, w1)
      ∧ (b = true ↔ (wire.probe w.bus address).1 = true)
      ∧ ((wire.probe w.bus address).1 = false → b = false) := by
  cases hp : (wire.probe w.bus address).1
  · exact ⟨false, _, _, begin_probe_false k d w address wire hp, by simp, by simp⟩
  · exact ⟨true, _, _, begin_probe_true k d w address wire hp, by simp, by simp⟩

theorem deleteOld_next {σ : Type} (d : Adafruit_TSC2007 σ) (w : World σ) :
    (deleteOld d w).next = w.next := by
  unfold deleteOld
  cases d.i2c_dev <;> rfl

theorem deleteOld_log {σ : Type} (d : Adafruit_TSC2007 σ) (w : World σ) :
    (deleteOld d w).log =
      w.log ++ (match d.i2c_dev with
        | none => []
        | some old => [Event.free old.id]) := by
  unfold deleteOld
  cases d.i2c_dev <;> simp

theorem transfers_append (l1 l2 : List Event) :
    transfers (l1 ++ l2) = transfers l1 ++ transfers l2 := by
  simp [transfers]

theorem transfers_deleteOld {σ : Type} (d : Adafruit_TSC2007 σ) (w : World σ) :
    transfers (deleteOld d w).log = transfers w.log := by
  rw [deleteOld_log, transfers_append]
  cases d.i2c_dev <;> simp [transfers]

/-- C11, as stated, does not hold: on a newly constructed driver a `begin` whose probe
fails returns `false` and leaves the handle field pointing at the interface it has just
allocated. -/
theorem begin_failed_probe_handle_not_empty :
    ((scripted false).probe [] 0x48).1 = false
      ∧ (begin sampleCodes construct { bus := [], next := 0, log := [] } 0x48
            (scripted false)).map (fun r => (r.1, r.2.1.i2c_dev.isSome))
          = some (false, true) :=
  ⟨rfl, rfl⟩

/-- C11 (amended): when the probe fails, `begin` returns `false` and the handle field
holds the interface just allocated for the address and wire of the call, whatever it
held before; what it held before, if anything, has been released, and the new interface
has not. -/
theorem begin_failed_probe_keeps_new_handle {σ : Type} (k : Codes)
    (d : Adafruit_TSC2007 σ) (w : World σ) (address : Byte) (wire : TwoWire σ)
    (hp : (wire.probe w.bus address).1 = false) :
    ∃ d1 w1, begin k d w address wire = some (false, d1, w1)
      ∧ d1.i2c_dev = some { id := w.next, addr := address, wire := wire }
      ∧ w1.log = w.log ++ (match d.i2c_dev with
          | none => []
          | some old => [Event.free old.id])
          ++ [Event.alloc w.next address, Event.probe address] := by
  refine ⟨_, _, begin_probe_false k d w address wire hp, ?_, ?_⟩
  · simp only [deleteOld_next]
  · simp only [deleteOld_next, deleteOld_log]

/-- Scenario for C11 (amended): a driver that holds interface 0 calls `begin` for
address 0x49 on a bus whose probe fails; interface 0 is released and the new interface 1
stays in the handle field. -/
theorem begin_failed_probe_keeps_new_handle_witness :
    ((scripted false).probe [] 0x49).1 = false
      ∧ ∃ d1 w1,
        begin sampleCodes { i2c_dev := some { id := 0, addr := 0x48, wire := scripted true } }
            { bus := [], next := 1, log := [Event.alloc 0 0x48, Event.probe 0x48] } 0x49
            (scripted false) = some (false, d1, w1)
          ∧ d1.i2c_dev = some { id := 1, addr := 0x49, wire := scripted false }
          ∧ w1.log = [Event.alloc 0 0x48, Event.probe 0x48] ++ [Event.free 0]
              ++ [Event.alloc 1 0x49, Event.probe 0x49] :=
  ⟨rfl,
    begin_failed_probe_keeps_new_handle sampleCodes
      { i2c_dev := some { id := 0, addr := 0x48, wire := scripted true } }
      { bus := [], next := 1, log := [Event.alloc 0 0x48, Event.probe 0x48] } 0x49
      (scripted false) rfl⟩

/-- C12: `begin` returns the result of the probe. When the probe succeeds the log grows,
after the allocation and after the probe, by exactly one bus transaction, whose byte is
the control byte of (temperature 0, power-down with IRQ on, 12 bit); the returned value
is the same whatever the bus answers to it. When the probe fails no transaction is
added. -/
theorem begin_one_command_after_probe {σ : Type} (k : Codes) (d : Adafruit_TSC2007 σ)
    (w : World σ) (address : Byte) (wire : TwoWire σ) :
    ∃ d1 w1, begin k d w address wire = some ((wire.probe w.bus address).1, d1, w1)
      ∧ w1.log = (deleteOld d w).log ++ [Event.alloc w.next address, Event.probe address]
          ++ (if (wire.probe w.bus address).1 = true then
                [Event.xfer address
                  [cmdByte k.MEASURE_TEMP0 k.POWERDOWN_IRQON k.ADC_12BIT] 2]
              else [])
      ∧ transfers w1.log = transfers w.log
          ++ (if (wire.probe w.bus address).1 = true then
                [Event.xfer address
                  [cmdByte k.MEASURE_TEMP0 k.POWERDOWN_IRQON k.ADC_12BIT] 2]
              else [])
      ∧ ∀ other : σ → Byte → List Byte → Nat → Reply × σ,
          (begin k d w address { probe := wire.probe, write_then_read := other }).map
              Prod.fst = some (wire.probe w.bus address).1 := by
  cases hp : (wire.probe w.bus address).1
  · refine ⟨_, _, begin_probe_false k d w address wire hp, ?_, ?_, ?_⟩
    · simp [deleteOld_next]
    · simp only [transfers_append, transfers_deleteOld]
      simp [transfers]
    · intro other
      rw [begin_probe_false k d w address { probe := wire.probe, write_then_read := other }
        hp]
      rfl
  · refine ⟨_, _, begin_probe_true k d w address wire hp, ?_, ?_, ?_⟩
    · simp [deleteOld_next]
    · simp only [transfers_append, transfers_deleteOld]
      simp [transfers]
    · intro other
      rw [begin_probe_true k d w address { probe := wire.probe, write_then_read := other }
        hp]
      rfl

/-! ## Handle accounting -/

theorem allocated_append (l1 l2 : List Event) :
    allocated (l1 ++ l2) = allocated l1 ++ allocated l2 := by
  simp [allocated]

theorem freed_append (l1 l2 : List Event) : freed (l1 ++ l2) = freed l1 ++ freed l2 := by
  simp [freed]

/-- The shape of every run of `begin`: release of the old interface (if any), then the
allocation of the new one, then events that neither allocate nor release. -/
theorem begin_shape {σ : Type} (k : Codes) (d : Adafruit_TSC2007 σ) (w : World σ)
    (address : Byte) (wire : TwoWire σ) :
    ∃ b s rest, begin k d w address wire =
        some (b, { i2c_dev := some { id := w.next, addr := address, wire := wire } },
          { bus := s, next := w.next + 1,
            log := w.log ++ (match d.i2c_dev with
                | none => []
                | some old => [Event.free old.id])
              ++ Event.alloc w.next address :: rest })
      ∧ allocated rest = [] ∧ freed rest = [] := by
  cases hp : (wire.probe w.bus address).1
  · refine ⟨false, (wire.probe w.bus address).2, [Event.probe address], ?_, rfl, rfl⟩
    rw [begin_probe_false k d w address wire hp, deleteOld_next, deleteOld_log]
  · refine ⟨true, (wire.write_then_read (wire.probe w.bus address).2 address
        [cmdByte k.MEASURE_TEMP0 k.POWERDOWN_IRQON k.ADC_12BIT] 2).2,
      [Event.probe address, Event.xfer address
        [cmdByte k.MEASURE_TEMP0 k.POWERDOWN_IRQON k.ADC_12BIT] 2], ?_, rfl, rfl⟩
    rw [begin_probe_true k d w address wire hp, deleteOld_next, deleteOld_log]

theorem handleInv_construct {σ : Type} (s : σ) (n : Nat) :
    HandleInv construct { bus := s, next := n, log := [] } := by
  simp [HandleInv, construct, allocated, freed, opens, closes]

theorem handleInv_begin {σ : Type} (k : Codes) (d : Adafruit_TSC2007 σ) (w : World σ)
    (address : Byte) (wire : TwoWire σ) (hinv : HandleInv d w) :
    ∃ b d1 w1, begin k d w address wire = some (b, d1, w1) ∧ HandleInv d1 w1 := by
  obtain ⟨b, s, rest, hrun, hra, hrf⟩ := begin_shape k d w address wire
  refine ⟨b, _, _, hrun, ?_⟩
  obtain ⟨hlt, hnd, hsub, hbal⟩ := hinv
  have hfresh : w.next ∉ freed w.log := fun h => Nat.lt_irrefl _ (hlt _ (hsub _ h))
  cases hd : d.i2c_dev with
  | none =>
    rw [hd] at hbal
    simp only [HandleInv, opens, closes] at hbal ⊢
    simp only [allocated_append, freed_append, List.append_nil,
      show allocated (Event.alloc w.next address :: rest) = w.next :: allocated rest from rfl,
      show freed (Event.alloc w.next address :: rest) = freed rest from rfl,
      show allocated ([] : List Event) = [] from rfl,
      show freed ([] : List Event) = [] from rfl, hra, hrf]
    refine ⟨?_, hnd, ?_, ?_, hfresh, ?_⟩
    · intro i hi
      rcases List.mem_append.mp hi with h | h
      · exact Nat.lt_succ_of_lt (hlt i h)
      · rw [List.mem_singleton.mp h]
        exact Nat.lt_succ_self _
    · intro i hi
      exact List.mem_append_left _ (hsub i hi)
    · simp
    · simp [hbal]
  | some old =>
    rw [hd] at hbal
    obtain ⟨hmem, hnot, hcount⟩ := hbal
    simp only [HandleInv, opens, closes] at hcount ⊢
    simp only [allocated_append, freed_append, List.append_nil,
      show allocated (Event.alloc w.next address :: rest) = w.next :: allocated rest from rfl,
      show freed (Event.alloc w.next address :: rest) = freed rest from rfl,
      show allocated [Event.free old.id] = [] from rfl,
      show freed [Event.free old.id] = [old.id] from rfl, hra, hrf]
    have hne : w.next ≠ old.id := fun h => Nat.lt_irrefl _ (h ▸ hlt _ hmem)
    refine ⟨?_, ?_, ?_, ?_, ?_, ?_⟩
    · intro i hi
      rcases List.mem_append.mp hi with h | h
      · exact Nat.lt_succ_of_lt (hlt i h)
      · rw [List.mem_singleton.mp h]
        exact Nat.lt_succ_self _
    · rw [List.nodup_append]
      refine ⟨hnd, List.nodup_singleton _, ?_⟩
      intro i hi hj
      rw [List.mem_singleton.mp hj] at hi
      exact hnot hi
    · intro i hi
      rcases List.mem_append.mp hi with h | h
      · exact List.mem_append_left _ (hsub i h)
      · rw [List.mem_singleton.mp h]
        exact List.mem_append_left _ hmem
    · simp
    · intro h
      rcases List.mem_append.mp h with h | h
      · exact hfresh h
      · exact hne (List.mem_singleton.mp h)
    · simp [hcount]

theorem handleInv_beginAll {σ : Type} (k : Codes) (calls : List (Byte × TwoWire σ)) :
    ∀ (d : Adafruit_TSC2007 σ) (w : World σ), HandleInv d w →
      ∃ d1 w1, beginAll k calls d w = some (d1, w1) ∧ HandleInv d1 w1 := by
  induction calls with
  | nil =>
    intro d w hinv
    exact ⟨d, w, rfl, hinv⟩
  | cons c rest ih =>
    intro d w hinv
    obtain ⟨b, d1, w1, hrun, hinv1⟩ := handleInv_begin k d w c.1 c.2 hinv
    obtain ⟨d2, w2, hrest, hinv2⟩ := ih d1 w1 hinv1
    refine ⟨d2, w2, ?_, hinv2⟩
    obtain ⟨a, t⟩ := c
    simp only [beginAll, hrun]
    exact hrest

theorem handleInv_counts {σ : Type} (d : Adafruit_TSC2007 σ) (w : World σ)
    (hinv : HandleInv d w) :
    closes w.log ≤ opens w.log ∧ opens w.log - closes w.log ≤ 1 := by
  obtain ⟨_, _, _, hbal⟩ := hinv
  cases hd : d.i2c_dev with
  | none =>
    rw [hd] at hbal
    simp only [] at hbal
    omega
  | some old =>
    rw [hd] at hbal
    obtain ⟨_, _, hcount⟩ := hbal
    omega

theorem handleInv_destructor {σ : Type} (d : Adafruit_TSC2007 σ) (w : World σ)
    (hinv : HandleInv d w) :
    (freed (destructor d w).log).Nodup
      ∧ opens (destructor d w).log = closes (destructor d w).log := by
  obtain ⟨_, hnd, _, hbal⟩ := hinv
  unfold destructor
  rw [deleteOld_log]
  cases hd : d.i2c_dev with
  | none =>
    rw [hd] at hbal
    simp only [List.append_nil]
    exact ⟨hnd, hbal⟩
  | some old =>
    rw [hd] at hbal
    obtain ⟨_, hnot, hcount⟩ := hbal
    simp only [opens, closes] at hcount ⊢
    simp only [allocated_append, freed_append,
      show allocated [Event.free old.id] = [] from rfl,
      show freed [Event.free old.id] = [old.id] from rfl, List.append_nil]
    refine ⟨?_, by simp [hcount]⟩
    rw [List.nodup_append]
    refine ⟨hnd, List.nodup_singleton _, ?_⟩
    intro i hi hj
    rw [List.mem_singleton.mp hj] at hi
    exact hnot hi

/-- C13: every `begin` releases the interface the driver holds (if any) before it
allocates the new one; hence after any sequence of `begin` calls on a newly constructed
driver, whatever the probes answer, releases never exceed allocations, allocations minus
releases is at most 1, no object has been released twice and only allocated objects have
been released; after the destructor the two counts are equal, still without a double
release. -/
theorem begin_sequence_at_most_one_handle {σ : Type} (k : Codes)
    (calls : List (Byte × TwoWire σ)) (s : σ) (n : Nat) :
    (∀ (d0 : Adafruit_TSC2007 σ) (w0 : World σ) (address : Byte) (wire : TwoWire σ),
        ∃ b d1 w1 rest, begin k d0 w0 address wire = some (b, d1, w1)
          ∧ w1.log = w0.log ++ (match d0.i2c_dev with
              | none => []
              | some old => [Event.free old.id])
              ++ Event.alloc w0.next address :: rest
          ∧ allocated rest = [] ∧ freed rest = [])
      ∧ ∃ d w, beginAll k calls construct { bus := s, next := n, log := [] } = some (d, w)
          ∧ closes w.log ≤ opens w.log
          ∧ opens w.log - closes w.log ≤ 1
          ∧ (freed w.log).Nodup
          ∧ (∀ i ∈ freed w.log, i ∈ allocated w.log)
          ∧ (freed (destructor d w).log).Nodup
          ∧ opens (destructor d w).log = closes (destructor d w).log := by
  constructor
  · intro d0 w0 address wire
    obtain ⟨b, s1, rest, hrun, hra, hrf⟩ := begin_shape k d0 w0 address wire
    exact ⟨b, _, _, rest, hrun, rfl, hra, hrf⟩
  · obtain ⟨d, w, hrun, hinv⟩ :=
      handleInv_beginAll k calls construct { bus := s, next := n, log := [] }
        (handleInv_construct s n)
    have hc := handleInv_counts d w hinv
    have hd := handleInv_destructor d w hinv
    exact ⟨d, w, hrun, hc.1, hc.2, hinv.2.1, hinv.2.2.1, hd.1, hd.2⟩

/-! ## Failed bus transactions -/

/-- C14, as stated, does not hold: a transaction that fails with `(0x12, 0x30)` in the
reply buffer makes `command` return 291, the very value it returns when a successful
transaction delivers those two bytes. -/
theorem command_masks_failed_transfer :
    ((scripted true).write_then_read [{ ok := false, b0 := 0x12, b1 := 0x30 }] 0x48
        [cmdByte 12 1 0] 2).1.ok = false
      ∧ (command { i2c_dev := some { id := 0, addr := 0x48, wire := scripted true } }
            { bus := [{ ok := false, b0 := 0x12, b1 := 0x30 }], next := 1, log := [] }
            12 1 0).map Prod.fst = some 291
      ∧ (command { i2c_dev := some { id := 0, addr := 0x48, wire := scripted true } }
            { bus := [{ ok := true, b0 := 0x12, b1 := 0x30 }], next := 1, log := [] }
            12 1 0).map Prod.fst = some 291 :=
  ⟨rfl, rfl, rfl⟩

/-- C14 (amended): when the bus transaction of `command` fails, `command` still returns
a sample: the value decoded from the two bytes in its reply buffer, which lies in 0 to
4095 and equals what it returns when a successful transaction leaves the same two bytes;
the failure is not passed on to the caller. -/
theorem command_ignores_transfer_failure {σ : Type} (dev : Adafruit_I2CDevice σ)
    (w : World σ) (func pwr res : Nat) (rep : Reply) (s : σ)
    (h : dev.wire.write_then_read w.bus dev.addr [cmdByte func pwr res] 2 = (rep, s))
    (_hfail : rep.ok = false) :
    (command { i2c_dev := some dev } w func pwr res).map Prod.fst
        = some (decode rep.b0 rep.b1)
      ∧ decode rep.b0 rep.b1 < 4096
      ∧ ∀ (τ : Type) (dev2 : Adafruit_I2CDevice τ) (w2 : World τ) (f2 p2 r2 : Nat)
          (rep2 : Reply) (s2 : τ),
          dev2.wire.write_then_read w2.bus dev2.addr [cmdByte f2 p2 r2] 2 = (rep2, s2) →
          rep2.ok = true → rep2.b0 = rep.b0 → rep2.b1 = rep.b1 →
          (command { i2c_dev := some dev2 } w2 f2 p2 r2).map Prod.fst =
            (command { i2c_dev := some dev } w func pwr res).map Prod.fst := by
  have hc : (command { i2c_dev := some dev } w func pwr res).map Prod.fst
      = some (decode rep.b0 rep.b1) := by
    rw [command_some, h]
    rfl
  refine ⟨hc, decode_lt _ _, ?_⟩
  intro τ dev2 w2 f2 p2 r2 rep2 s2 h2 _ e0 e1
  rw [hc, command_some, h2, ← e0, ← e1]
  rfl

/-- Scenario for C14 (amended): the script is exhausted, the transaction fails with a
zeroed buffer, and `command` returns the sample 0. -/
theorem command_ignores_transfer_failure_witness :
    ((scripted true).write_then_read [] 0x48 [cmdByte 12 1 0] 2).1.ok = false
      ∧ (command { i2c_dev := some { id := 0, addr := 0x48, wire := scripted true } }
            { bus := [], next := 1, log := [] } 12 1 0).map Prod.fst = some 0 :=
  ⟨rfl,
    (command_ignores_transfer_failure { id := 0, addr := 0x48, wire := scripted true }
      { bus := [], next := 1, log := [] } 12 1 0 { ok := false, b0 := 0, b1 := 0 } []
      rfl rfl).1⟩

/-! ## Arithmetic of the decoded sample -/

theorem decode_arith (b0 b1 : Byte) : decode b0 b1 = 16 * b0.val + b1.val / 16 := by
  rw [decode_eq, Nat.shiftLeft_eq, Nat.shiftRight_eq_div_pow]
  have hlt : b1.val / 2 ^ 4 < 2 ^ 4 := by
    have := b1.isLt
    norm_num
    omega
  have h := Nat.mul_add_lt_is_or hlt b0.val
  rw [Nat.mul_comm b0.val (2 ^ 4), ← h]
  norm_num

theorem shifted16_arith (b0 b1 : Byte) :
    shifted16 b0 b1 = (256 * b0.val + b1.val) / 16 := by
  unfold shifted16
  rw [Nat.shiftLeft_eq, Nat.shiftRight_eq_div_pow]
  have hlt : b1.val < 2 ^ 8 := b1.isLt
  have h := Nat.mul_add_lt_is_or hlt b0.val
  rw [Nat.mul_comm b0.val (2 ^ 8), ← h]

theorem decode_eq_shifted16 (b0 b1 : Byte) : decode b0 b1 = shifted16 b0 b1 := by
  rw [decode_arith, shifted16_arith]
  omega

theorem decode_saturated (b0 b1 : Byte) :
    decode b0 b1 = 4095 ↔ b0 = 0xFF ∧ 0xF0 ≤ b1 := by
  rw [decode_arith, Fin.ext_iff, Fin.le_iff_val_le_val]
  have h0 := b0.isLt
  have h1 := b1.isLt
  have e0 : ((0xFF : Byte) : Nat) = 255 := rfl
  have e1 : ((0xF0 : Byte) : Nat) = 240 := rfl
  rw [e0, e1]
  omega

theorem saturated_card :
    (Finset.univ.filter (fun q : Byte × Byte => decode q.1 q.2 = 4095)).card = 16 := by
  have hset : Finset.univ.filter (fun q : Byte × Byte => decode q.1 q.2 = 4095)
      = ({0xFF} : Finset Byte) ×ˢ Finset.Ici (0xF0 : Byte) := by
    ext q
    rw [Finset.mem_filter, Finset.mem_product, Finset.mem_singleton, Finset.mem_Ici,
      decode_saturated]
    simp
  rw [hset, Finset.card_product, Finset.card_singleton, Fin.card_Ici]
  rfl

/-- C15: for every reply `(b0, b1)` the value `command` returns is the 16-bit big-endian
read value shifted right by 4, `((b0 << 8) | b1) >> 4`, which is the integer quotient of
`256 * b0 + b1` by 16; so a run whose reply differs only in the low 4 bits of `b1`
returns the same value. -/
theorem command_returns_shifted16 {σ : Type} (dev : Adafruit_I2CDevice σ) (w : World σ)
    (func pwr res : Nat) (rep : Reply) (s : σ)
    (h : dev.wire.write_then_read w.bus dev.addr [cmdByte func pwr res] 2 = (rep, s)) :
    (command { i2c_dev := some dev } w func pwr res).map Prod.fst
        = some (shifted16 rep.b0 rep.b1)
      ∧ shifted16 rep.b0 rep.b1 = ((rep.b0.val <<< 8) ||| rep.b1.val) >>> 4
      ∧ shifted16 rep.b0 rep.b1 = (256 * rep.b0.val + rep.b1.val) / 16
      ∧ ∀ (τ : Type) (dev2 : Adafruit_I2CDevice τ) (w2 : World τ) (f2 p2 r2 : Nat)
          (rep2 : Reply) (s2 : τ),
          dev2.wire.write_then_read w2.bus dev2.addr [cmdByte f2 p2 r2] 2 = (rep2, s2) →
          rep2.b0 = rep.b0 → rep2.b1.val >>> 4 = rep.b1.val >>> 4 →
          (command { i2c_dev := some dev2 } w2 f2 p2 r2).map Prod.fst =
            (command { i2c_dev := some dev } w func pwr res).map Prod.fst := by
  have hc : (command { i2c_dev := some dev } w func pwr res).map Prod.fst
      = some (decode rep.b0 rep.b1) := by
    rw [command_some, h]
    rfl
  refine ⟨by rw [hc, decode_eq_shifted16], rfl, shifted16_arith _ _, ?_⟩
  intro τ dev2 w2 f2 p2 r2 rep2 s2 h2 e0 e1
  have hc2 : (command { i2c_dev := some dev2 } w2 f2 p2 r2).map Prod.fst
      = some (decode rep2.b0 rep2.b1) := by
    rw [command_some, h2]
    rfl
  rw [hc, hc2, decode_eq, decode_eq, e0, e1]

/-- Scenario for C15: the reply `(0x12, 0x3F)` is the 16-bit value 0x123F; `command`
returns 0x123 = 291, the low nibble 0xF is dropped. -/
theorem command_returns_shifted16_witness :
    (command { i2c_dev := some { id := 0, addr := 0x48, wire := scripted true } }
        { bus := [{ ok := true, b0 := 0x12, b1 := 0x3F }], next := 1, log := [] }
        12 1 0).map Prod.fst = some (shifted16 0x12 0x3F)
      ∧ shifted16 0x12 0x3F = 291 :=
  ⟨(command_returns_shifted16 { id := 0, addr := 0x48, wire := scripted true }
      { bus := [{ ok := true, b0 := 0x12, b1 := 0x3F }], next := 1, log := [] }
      12 1 0 { ok := true, b0 := 0x12, b1 := 0x3F } [] rfl).1, rfl⟩

/-- C16: a reply `(b0, b1)` decodes to 4095 exactly when `b0 = 0xFF` and `b1 ≥ 0xF0`;
exactly 16 of the 65536 replies do; and `read_touch` returns `false` exactly when the
reply to the X transaction or the reply to the Y transaction is one of them. -/
theorem read_touch_false_iff_saturated_reply {σ : Type} (k : Codes)
    (dev : Adafruit_I2CDevice σ) (w : World σ) (r1 r2 : Reply) (s1 s2 : σ)
    (h1 : dev.wire.write_then_read w.bus dev.addr
      [cmdByte k.MEASURE_X k.ADON_IRQOFF k.ADC_12BIT] 2 = (r1, s1))
    (h2 : dev.wire.write_then_read s1 dev.addr
      [cmdByte k.MEASURE_Y k.ADON_IRQOFF k.ADC_12BIT] 2 = (r2, s2)) :
    (∀ b0 b1 : Byte, decode b0 b1 = 4095 ↔ b0 = 0xFF ∧ 0xF0 ≤ b1)
      ∧ (Finset.univ.filter (fun q : Byte × Byte => decode q.1 q.2 = 4095)).card = 16
      ∧ ((read_touch k { i2c_dev := some dev } w).map (fun o => o.1.success) = some false
          ↔ (r1.b0 = 0xFF ∧ 0xF0 ≤ r1.b1) ∨ (r2.b0 = 0xFF ∧ 0xF0 ≤ r2.b1)) := by
  refine ⟨decode_saturated, saturated_card, ?_⟩
  rw [read_touch_success_eq k dev w r1 r2 s1 s2 h1 h2, ← decode_saturated,
    ← decode_saturated]
  simp only [Option.some.injEq, Bool.and_eq_false_imp, bne_iff_ne, ne_eq,
    bne_eq_false_iff_eq]
  exact Decidable.imp_iff_not_or.trans (by rw [Decidable.not_not])

/-- Scenario for C16: the X reply `(0xFF, 0xF7)` is one of the 16 saturated replies, so
the reading is reported invalid. -/
theorem read_touch_false_iff_saturated_reply_witness :
    (read_touch sampleCodes
        { i2c_dev := some { id := 0, addr := 0x48, wire := scripted true } }
        { bus := [{ ok := true, b0 := 0xFF, b1 := 0xF7 }, { ok := true, b0 := 0x3F, b1 := 0xF0 }],
          next := 1, log := [] }).map (fun o => o.1.success) = some false :=
  (read_touch_false_iff_saturated_reply sampleCodes
    { id := 0, addr := 0x48, wire := scripted true }
    { bus := [{ ok := true, b0 := 0xFF, b1 := 0xF7 }, { ok := true, b0 := 0x3F, b1 := 0xF0 }],
      next := 1, log := [] }
    { ok := true, b0 := 0xFF, b1 := 0xF7 } { ok := true, b0 := 0x3F, b1 := 0xF0 }
    [{ ok := true, b0 := 0x3F, b1 := 0xF0 }] [] rfl rfl).2.2.mpr
    (Or.inl ⟨rfl, by decide⟩)

/-- C17: every 12-bit value `v` is reached: `v >> 4` and `(v & 0xF) << 4` are bytes, the
reply made of them decodes to `v`, and `command` returns `v` when the bus delivers that
reply. -/
theorem decode_right_inverse (v : Nat) (hv : v < 4096) :
    ∃ (h0 : v >>> 4 < 256) (h1 : (v &&& 0xF) <<< 4 < 256),
      decode ⟨v >>> 4, h0⟩ ⟨(v &&& 0xF) <<< 4, h1⟩ = v
        ∧ ∀ (σ : Type) (dev : Adafruit_I2CDevice σ) (w : World σ) (func pwr res : Nat)
            (rep : Reply) (s : σ),
            dev.wire.write_then_read w.bus dev.addr [cmdByte func pwr res] 2 = (rep, s) →
            rep.b0 = ⟨v >>> 4, h0⟩ → rep.b1 = ⟨(v &&& 0xF) <<< 4, h1⟩ →
            (command { i2c_dev := some dev } w func pwr res).map Prod.fst = some v := by
  have hand : v &&& 0xF = v % 16 := Nat.and_pow_two_sub_one_eq_mod v 4
  have hb0 : v >>> 4 = v / 16 := Nat.shiftRight_eq_div_pow v 4
  have hb1 : (v &&& 0xF) <<< 4 = v % 16 * 16 := by
    rw [hand, Nat.shiftLeft_eq]
  have h0 : v >>> 4 < 256 := by
    rw [hb0]
    omega
  have h1 : (v &&& 0xF) <<< 4 < 256 := by
    rw [hb1]
    omega
  have hdec : decode ⟨v >>> 4, h0⟩ ⟨(v &&& 0xF) <<< 4, h1⟩ = v := by
    rw [decode_arith]
    simp only [hb0, hb1]
    omega
  refine ⟨h0, h1, hdec, ?_⟩
  intro σ dev w func pwr res rep s h e0 e1
  rw [command_some, h]
  simp only [Option.map_some', e0, e1, hdec]

/-- Scenario for C17: the value 291 = 0x123 comes back from the reply `(0x12, 0x30)`. -/
theorem decode_right_inverse_witness :
    291 < 4096
      ∧ ∃ (h0 : 291 >>> 4 < 256) (h1 : (291 &&& 0xF) <<< 4 < 256),
        decode ⟨291 >>> 4, h0⟩ ⟨(291 &&& 0xF) <<< 4, h1⟩ = 291 :=
  ⟨by decide,
    (decode_right_inverse 291 (by decide)).elim fun h0 hrest =>
      hrest.elim fun h1 hboth => ⟨h0, h1, hboth.1⟩⟩

end TSC2007
